import Mathlib

/-!
Verification of the PokeAPI ingestion script (src/pokeapi.py) against its
natural-language specification.

The script is a single linear pipeline: fetch one listing page, fetch each
entry detail document, flatten it into a tabular row, accumulate rows,
summarize and export. Network fetches are modelled by an explicit oracle
(`World`); the pipeline additionally emits an event trace so that claims
about the number of detail calls and about pacing delays can be stated.
Rationals stand in for Python floats (ideal arithmetic).
-/

namespace PokeApi

/-- Nested name record inside one element of the `types` array of a detail
document (`t["type"]["name"]` in the source). -/
structure TypeRef where
  name : String
deriving DecidableEq, Repr

/-- One element of the `types` array of a detail document. -/
structure TypeSlot where
  type : TypeRef
deriving DecidableEq, Repr

/-- Nested name record inside one element of the `abilities` array
(`a["ability"]["name"]` in the source). -/
structure AbilityRef where
  name : String
deriving DecidableEq, Repr

/-- One element of the `abilities` array of a detail document. -/
structure AbilitySlot where
  ability : AbilityRef
deriving DecidableEq, Repr

/-- A detail document as consumed by `parse_pokemon_details`. Every field is
optional because the source reads each one with `dict.get`, which yields
`None` when the key is absent. -/
structure Details where
  id : Option Int
  name : Option String
  height : Option Int
  weight : Option Int
  base_experience : Option Int
  types : Option (List TypeSlot)
  abilities : Option (List AbilitySlot)
deriving DecidableEq, Repr

/-- The flat row built by `parse_pokemon_details`: scalar fields copied
through, `types` and `abilities` joined into single strings. -/
structure FlatRow where
  id : Option Int
  name : Option String
  height_dm : Option Int
  weight_hg : Option Int
  base_experience : Option Int
  types : String
  abilities : String
deriving DecidableEq, Repr

/-- Python string join with separator ", " (the source writes
`", ".join(names)`): empty list gives the empty string, a singleton gives
the string itself, otherwise the separator goes between elements. -/
def joinComma : List String → String
  | [] => ""
  | [s] => s
  | s :: rest => s ++ ", " ++ joinComma rest

/-- The type names of a detail document, in order
(`[t["type"]["name"] for t in details.get("types", [])]`). -/
def typeNames (details : Details) : List String :=
  (details.types.getD []).map (fun t => t.type.name)

/-- The ability names of a detail document, in order
(`[a["ability"]["name"] for a in details.get("abilities", [])]`). -/
def abilityNames (details : Details) : List String :=
  (details.abilities.getD []).map (fun a => a.ability.name)

/-- Embedding of `parse_pokemon_details`: copies the scalar fields through
`dict.get` (so absent keys become `none`) and joins the extracted type and
ability names with ", ". -/
def parse_pokemon_details (details : Details) : FlatRow :=
  { id := details.id
    name := details.name
    height_dm := details.height
    weight_hg := details.weight
    base_experience := details.base_experience
    types := joinComma (typeNames details)
    abilities := joinComma (abilityNames details) }

/-- A fetch failure; the payload is an uninterpreted description of the underlying
exception (network error, timeout, non-2xx status, bad JSON body). -/
abbrev FetchErr := String

/-- One entry of the listing page: `{"name": ..., "url": ...}` read with
`dict.get`, hence optional. -/
structure Entry where
  name : Option String
  url : Option String
deriving DecidableEq, Repr

/-- The listing page body; the source reads `listing.get("results", [])`, so
the key may be absent. -/
structure Listing where
  results : Option (List Entry)
deriving DecidableEq, Repr

/-- Observable events of one pipeline run: the listing fetch, each detail
fetch, and each fixed pacing delay (`time.sleep(0.2)`). -/
inductive Event where
  | listingCall (limit offset : Nat)
  | detailCall (url : Option String)
  | sleep (seconds : ℚ)
deriving DecidableEq, Repr

/-- The external world the script talks to: the listing endpoint keyed by
the limit and offset query parameters, and the detail endpoint keyed by the
url taken from a listing entry. Each fetch either returns a parsed body or
fails. -/
structure World where
  listing : Nat → Nat → Except FetchErr Listing
  detail : Option String → Except FetchErr Details

/-- What one run of `scrape_pokemon` produces: the returned rows (or the
propagated listing-fetch error), the failure log printed by the except
branch, and the event trace. -/
structure Outcome where
  result : Except FetchErr (List FlatRow)
  log : List (Option String × FetchErr)
  events : List Event
deriving Repr

/-- The fixed pacing delay of the source, `time.sleep(0.2)`. -/
def pacingDelay : ℚ := 1 / 5

/-- The body of the for loop of `scrape_pokemon`, one entry at a time: fetch
the detail document for the entry url; on success flatten it and append the
row, on failure log the entry name with the cause; in both cases sleep the
fixed delay afterwards. Returns the accumulated rows, log lines and events,
each in loop order. -/
def processEntries (w : World) : List Entry → List FlatRow × List (Option String × FetchErr) × List Event
  | [] => ([], [], [])
  | p :: rest =>
    let tail := processEntries w rest
    match w.detail p.url with
    | .ok d =>
        (parse_pokemon_details d :: tail.1, tail.2.1,
          .detailCall p.url :: .sleep pacingDelay :: tail.2.2)
    | .error e =>
        (tail.1, (p.name, e) :: tail.2.1,
          .detailCall p.url :: .sleep pacingDelay :: tail.2.2)

/-- Embedding of `scrape_pokemon` (the collect pipeline; the source defaults
are limit 60, offset 0). Fetch the listing page with the limit and offset
query parameters; a listing failure propagates immediately, before any
detail fetch. Otherwise iterate `listing.get("results", [])` through the
loop body and return the accumulated rows. -/
def scrape_pokemon (w : World) (limit offset : Nat) : Outcome :=
  match w.listing limit offset with
  | .error e => { result := .error e, log := [], events := [.listingCall limit offset] }
  | .ok listing =>
    let r := processEntries w (listing.results.getD [])
    { result := .ok r.1, log := r.2.1, events := .listingCall limit offset :: r.2.2 }

/-- The rows a finished run handed to the reporter: none when the run
aborted with a propagated error. -/
def rowsOf (o : Outcome) : List FlatRow :=
  match o.result with
  | .ok rows => rows
  | .error _ => []

/-- Whether an event is a detail fetch. -/
def isDetailCall : Event → Bool
  | .detailCall _ => true
  | _ => false

/-- How many detail fetches a trace contains. -/
def countDetailCalls (events : List Event) : Nat :=
  (events.filter isDetailCall).length

/-- The row produced for one listing entry when its detail fetch succeeds,
and nothing when it fails. -/
def okRow (w : World) (p : Entry) : Option FlatRow :=
  match w.detail p.url with
  | .ok d => some (parse_pokemon_details d)
  | .error _ => none

/-- The log line produced for one listing entry when its detail fetch
fails, and nothing when it succeeds. -/
def errLog (w : World) (p : Entry) : Option (Option String × FetchErr) :=
  match w.detail p.url with
  | .ok _ => none
  | .error e => some (p.name, e)

/-- Whether the detail fetch for an entry succeeds in a given world. -/
def detOk (w : World) (p : Entry) : Prop :=
  ∃ d, w.detail p.url = .ok d

/-- Embedding of the summary expression
`df["base_experience"].dropna().mean()` of `main`. On an empty result set
`pd.DataFrame([])` has no columns at all, so the column access raises a
KeyError: that crash is the error case. On a nonempty result set the
column exists (every row dict carries the key) and the expression is the
mean over the non-null base experience values, `none` when there is no
such value (pandas yields NaN there). -/
def averageBaseExperience (rows : List FlatRow) : Except String (Option ℚ) :=
  if rows.isEmpty then .error "KeyError: base_experience"
  else
    let vals : List Int := rows.filterMap (fun r => r.base_experience)
    if vals.isEmpty then .ok none
    else .ok (some ((vals.map (fun v : Int => (v : ℚ))).sum / vals.length))

/-- Round a rational to the nearest integer, ties to even: the semantics of
the Python builtin `round` on an exactly represented value. -/
def roundHalfEven (q : ℚ) : Int :=
  let f := ⌊q⌋
  if q - f < 1 / 2 then f
  else if 1 / 2 < q - f then f + 1
  else if f % 2 = 0 then f else f + 1

/-- Python `round(x, 2)`: round to two decimal places, ties to even. -/
def round2 (q : ℚ) : ℚ :=
  (roundHalfEven (q * 100) : ℚ) / 100

/-- The average printed by `main`:
`round(df["base_experience"].dropna().mean(), 2)`; the KeyError of the
column access on an empty result set passes through. -/
def printedAverage (rows : List FlatRow) : Except String (Option ℚ) :=
  (averageBaseExperience rows).map (fun avg => avg.map round2)

/-- Follows the words of the spec, for comparison with the code-derived
`averageBaseExperience`: the arithmetic mean of base experience over
exactly the rows where it is non-null (nulls excluded from both sum and
count), undefined when no row has a non-null value. -/
def meanNonNullSpec (rows : List FlatRow) : Option ℚ :=
  let nonNull := rows.filter (fun r => r.base_experience.isSome)
  if nonNull.length = 0 then none
  else some ((nonNull.map (fun r => ((r.base_experience.getD 0 : Int) : ℚ))).sum / nonNull.length)

/-- Whether a character list contains the two-character separator ", "
anywhere (as a contiguous run). -/
def hasSep : List Char → Bool
  | [] => false
  | [_] => false
  | a :: b :: rest => if a = ',' ∧ b = ' ' then true else hasSep (b :: rest)

/-- Split a character list at every occurrence of the two-character
separator ", ", scanning left to right. The result is never empty; the
empty list splits into one empty chunk. -/
def splitChunks : List Char → List (List Char)
  | [] => [[]]
  | [c] => [[c]]
  | a :: b :: rest =>
    if a = ',' ∧ b = ' ' then [] :: splitChunks rest
    else
      match splitChunks (b :: rest) with
      | [] => [[a]]
      | chunk :: more => (a :: chunk) :: more

/-- Modelled from the spec: the reconstruction of a name sequence from a
joined field when an exported line is re-read (the source has no reader;
section 8 of the spec reconstructs `types` and `abilities` from the joined
string by splitting on ", ", the empty field standing for the empty
sequence that produced it). -/
def readNames (s : String) : List String :=
  if s = "" then [] else (splitChunks s.data).map (fun cs => String.mk cs)

/-- A name is fit for the join/split round trip when it is nonempty and
does not itself contain the separator ", ". -/
def GoodName (s : String) : Prop :=
  s ≠ "" ∧ hasSep s.data = false

instance (s : String) : Decidable (GoodName s) :=
  inferInstanceAs (Decidable (s ≠ "" ∧ hasSep s.data = false))

/-- A valid detail document in the sense of section 3 of the spec: the
scalar fields id, name, height and weight are present (base experience may
be absent), and every type and ability name is a good name. -/
def ValidDetails (d : Details) : Prop :=
  d.id.isSome ∧ d.name.isSome ∧ d.height.isSome ∧ d.weight.isSome ∧
    (∀ n ∈ typeNames d, GoodName n) ∧ (∀ n ∈ abilityNames d, GoodName n)

/-- The typed content recovered by re-reading one exported line. -/
structure ReadBack where
  id : Option Int
  name : Option String
  height_dm : Option Int
  weight_hg : Option Int
  base_experience : Option Int
  types : List String
  abilities : List String
deriving DecidableEq, Repr

/-- Modelled from the spec: re-reading one exported delimited line. The
spec treats CSV file mechanics as an external collaborator (out of scope),
so the line is modelled as the row fields in export order; the joined
`types` and `abilities` fields are reconstructed with `readNames`. -/
def reRead (r : FlatRow) : ReadBack :=
  { id := r.id
    name := r.name
    height_dm := r.height_dm
    weight_hg := r.weight_hg
    base_experience := r.base_experience
    types := readNames r.types
    abilities := readNames r.abilities }

/-- Scan of an event trace checking pacing: once a detail call has been
seen, no further detail call may occur until a sleep has occurred. The flag
records whether a detail call is pending a sleep. -/
def pacedFrom (pending : Bool) : List Event → Bool
  | [] => true
  | .sleep _ :: rest => pacedFrom false rest
  | .detailCall _ :: rest => if pending then false else pacedFrom true rest
  | .listingCall _ _ :: rest => pacedFrom pending rest

/-- A trace is paced when no two detail calls occur without a sleep between
them. -/
def paced (events : List Event) : Bool :=
  pacedFrom false events

/-- The events the loop of `scrape_pokemon` emits for a list of entries:
one detail call and one fixed sleep per entry, in order, whatever the
outcome of the detail fetch. -/
def entryEvents : List Entry → List Event
  | [] => []
  | p :: rest => .detailCall p.url :: .sleep pacingDelay :: entryEvents rest

/-! Concrete fixtures used by witnesses and counterexamples. -/

/-- A sample detail document with two types and one ability. -/
def dA : Details :=
  { id := some 1, name := some "bulbasaur", height := some 7, weight := some 69,
    base_experience := some 64,
    types := some [{ type := { name := "grass" } }, { type := { name := "poison" } }],
    abilities := some [{ ability := { name := "overgrow" } }] }

/-- A sample detail document with one type and two abilities. -/
def dC : Details :=
  { id := some 7, name := some "squirtle", height := some 5, weight := some 90,
    base_experience := some 63,
    types := some [{ type := { name := "water" } }],
    abilities := some [{ ability := { name := "torrent" } }, { ability := { name := "rain-dish" } }] }

/-- A detail document with every key absent. -/
def dEmpty : Details :=
  { id := none, name := none, height := none, weight := none,
    base_experience := none, types := none, abilities := none }

/-- Listing entries for the three-entry fixture world. -/
def entryA : Entry := { name := some "A", url := some "uA" }

/-- The middle entry of the three-entry fixture world; its detail fetch
fails there. -/
def entryB : Entry := { name := some "B", url := some "uB" }

/-- The last entry of the three-entry fixture world. -/
def entryC : Entry := { name := some "C", url := some "uC" }

/-- A world with a three-entry listing page in which exactly the detail
fetch of entryB fails (with a timeout). -/
def w3 : World :=
  { listing := fun _ _ => .ok { results := some [entryA, entryB, entryC] }
    detail := fun u =>
      if u = some "uA" then .ok dA
      else if u = some "uB" then .error "timeout"
      else .ok dC }

/-- A world whose listing fetch always fails. -/
def wFail : World :=
  { listing := fun _ _ => .error "listing timeout"
    detail := fun _ => .ok dA }

/-- A world whose listing page is present but empty, with every detail
fetch succeeding. -/
def wEmptyPage : World :=
  { listing := fun _ _ => .ok { results := some [] }
    detail := fun _ => .ok dA }

/-- A world whose listing body lacks the results key entirely. -/
def wNoResults : World :=
  { listing := fun _ _ => .ok { results := none }
    detail := fun _ => .ok dA }

/-- A row whose only populated field is base experience; the summary
computations look at nothing else. -/
def rowBexp (b : Option Int) : FlatRow :=
  { id := none, name := none, height_dm := none, weight_hg := none,
    base_experience := b, types := "", abilities := "" }

/-- The example rows of the spec for the average: base experience values
10, null, 20. -/
def exampleRows7 : List FlatRow :=
  [rowBexp (some 10), rowBexp none, rowBexp (some 20)]

/-- Rows in which no base experience is present. -/
def allNullRows : List FlatRow :=
  [rowBexp none, rowBexp none]

/-- Rows whose base experience values 10, 10, 11 average to 31 thirds, a
value that a two-decimal rounding changes. -/
def rowsThird : List FlatRow :=
  [rowBexp (some 10), rowBexp (some 10), rowBexp (some 11)]

/-! Helper lemmas about the separator, splitting and joining. -/

theorem hasSep_cons_false {a b : Char} {t : List Char}
    (h : hasSep (a :: b :: t) = false) :
    ¬(a = ',' ∧ b = ' ') ∧ hasSep (b :: t) = false := by
  by_cases hc : a = ',' ∧ b = ' '
  · simp [hasSep, hc] at h
  · exact ⟨hc, by simpa [hasSep, hc] using h⟩

theorem splitChunks_of_noSep : ∀ l : List Char, hasSep l = false → splitChunks l = [l]
  | [], _ => rfl
  | [_], _ => rfl
  | a :: b :: t, h => by
    obtain ⟨hc, ht⟩ := hasSep_cons_false h
    simp only [splitChunks]
    rw [if_neg hc, splitChunks_of_noSep (b :: t) ht]

theorem splitChunks_sep (r : List Char) :
    splitChunks (',' :: ' ' :: r) = [] :: splitChunks r := by
  simp [splitChunks]

theorem splitChunks_append_sep : ∀ (l r : List Char), hasSep l = false →
    splitChunks (l ++ ',' :: ' ' :: r) = l :: splitChunks r
  | [], r, _ => splitChunks_sep r
  | [c], r, _ => by
    show splitChunks (c :: ',' :: ' ' :: r) = [c] :: splitChunks r
    simp [splitChunks]
  | a :: b :: t, r, h => by
    obtain ⟨hc, ht⟩ := hasSep_cons_false h
    show splitChunks (a :: b :: (t ++ ',' :: ' ' :: r)) = (a :: b :: t) :: splitChunks r
    simp only [splitChunks]
    rw [if_neg hc]
    have hrec : splitChunks (b :: (t ++ ',' :: ' ' :: r)) = (b :: t) :: splitChunks r :=
      splitChunks_append_sep (b :: t) r ht
    rw [hrec]

theorem joinComma_cons_cons_data (n m : String) (t : List String) :
    (joinComma (n :: m :: t)).data = n.data ++ ',' :: ' ' :: (joinComma (m :: t)).data := by
  show (n ++ ", " ++ joinComma (m :: t)).data = _
  rw [String.data_append, String.data_append, List.append_assoc]
  rfl

theorem joinComma_ne_empty (n : String) (rest : List String) (hn : n ≠ "") :
    joinComma (n :: rest) ≠ "" := by
  cases rest with
  | nil => exact hn
  | cons m t =>
    intro h
    have hd := joinComma_cons_cons_data n m t
    rw [h] at hd
    have hd' : ([] : List Char) = n.data ++ ',' :: ' ' :: (joinComma (m :: t)).data := hd
    exact absurd hd'.symm (by simp)

theorem splitChunks_joinComma : ∀ (names : List String),
    (∀ n ∈ names, hasSep n.data = false) → names ≠ [] →
    splitChunks (joinComma names).data = names.map String.data
  | [], _, h => absurd rfl h
  | [n], h, _ => by
    show splitChunks n.data = [n.data]
    exact splitChunks_of_noSep n.data (h n (by simp))
  | n :: m :: t, h, _ => by
    rw [joinComma_cons_cons_data, splitChunks_append_sep _ _ (h n (by simp)),
      splitChunks_joinComma (m :: t) (fun x hx => h x (List.mem_cons_of_mem n hx)) (by simp)]
    rfl

theorem map_mk_data : ∀ (l : List String), l.map (fun s => String.mk s.data) = l
  | [] => rfl
  | s :: t => by rw [List.map_cons, map_mk_data t]

theorem readNames_joinComma (names : List String) (h : ∀ n ∈ names, GoodName n) :
    readNames (joinComma names) = names := by
  cases names with
  | nil => simp [readNames, joinComma]
  | cons n rest =>
    have hne : joinComma (n :: rest) ≠ "" := joinComma_ne_empty n rest (h n (by simp)).1
    simp only [readNames]
    rw [if_neg hne, splitChunks_joinComma (n :: rest) (fun x hx => (h x hx).2) (by simp),
      List.map_map]
    exact map_mk_data (n :: rest)

/-- C1: for every valid detail document, flattening it and re-reading the
exported delimited line recovers id, name, height (dm) and weight (hg)
exactly, and splitting the joined types and abilities fields on ", "
reconstructs the original ordered name sequences, the empty field standing
for the empty sequence. -/
theorem flatten_export_roundtrip (d : Details) (h : ValidDetails d) :
    reRead (parse_pokemon_details d) =
      { id := d.id, name := d.name, height_dm := d.height, weight_hg := d.weight,
        base_experience := d.base_experience,
        types := typeNames d, abilities := abilityNames d } := by
  obtain ⟨_, _, _, _, hty, hab⟩ := h
  simp only [reRead, parse_pokemon_details]
  rw [readNames_joinComma _ hty, readNames_joinComma _ hab]

/-- Witness for C1 at a concrete valid document with two types and one
ability. -/
theorem flatten_export_roundtrip_witness :
    ValidDetails dA ∧
      reRead (parse_pokemon_details dA) =
        { id := some 1, name := some "bulbasaur", height_dm := some 7, weight_hg := some 69,
          base_experience := some 64,
          types := ["grass", "poison"], abilities := ["overgrow"] } := by
  have hv : ValidDetails dA := by
    refine ⟨rfl, rfl, rfl, rfl, ?_, ?_⟩ <;> decide
  refine ⟨hv, ?_⟩
  rw [flatten_export_roundtrip dA hv]
  rfl

/-! Lemmas about the pipeline loop. -/

theorem processEntries_eq (w : World) : ∀ l : List Entry,
    processEntries w l = (l.filterMap (okRow w), l.filterMap (errLog w), entryEvents l)
  | [] => rfl
  | p :: rest => by
    have ih := processEntries_eq w rest
    cases h : w.detail p.url with
    | ok d => simp [processEntries, okRow, errLog, entryEvents, h, ih]
    | error e => simp [processEntries, okRow, errLog, entryEvents, h, ih]

theorem length_rows_add_log (w : World) : ∀ l : List Entry,
    (l.filterMap (okRow w)).length + (l.filterMap (errLog w)).length = l.length
  | [] => rfl
  | p :: rest => by
    have ih := length_rows_add_log w rest
    cases h : w.detail p.url with
    | ok d =>
      simp only [List.filterMap_cons, okRow, errLog, h, List.length_cons]
      omega
    | error e =>
      simp only [List.filterMap_cons, okRow, errLog, h, List.length_cons]
      omega

theorem filterMap_okRow_all_ok (w : World) : ∀ l : List Entry, (∀ p ∈ l, detOk w p) →
    (l.filterMap (okRow w)).length = l.length
  | [], _ => rfl
  | p :: rest, h => by
    obtain ⟨d, hd⟩ := h p (by simp)
    have ih := filterMap_okRow_all_ok w rest (fun q hq => h q (by simp [hq]))
    simp [List.filterMap_cons, okRow, hd, ih]

theorem filterMap_errLog_all_ok (w : World) : ∀ l : List Entry, (∀ p ∈ l, detOk w p) →
    l.filterMap (errLog w) = []
  | [], _ => rfl
  | p :: rest, h => by
    obtain ⟨d, hd⟩ := h p (by simp)
    have ih := filterMap_errLog_all_ok w rest (fun q hq => h q (by simp [hq]))
    simp [List.filterMap_cons, errLog, hd, ih]

theorem pacedFrom_entryEvents : ∀ l : List Entry, pacedFrom false (entryEvents l) = true
  | [] => rfl
  | p :: rest => by
    simp [entryEvents, pacedFrom, pacedFrom_entryEvents rest]

/-- C2 counterexample: with limit 1 and a legitimate listing page carrying
zero entries, the run returns 0 rows and logs 0 failures, yet 0 is not
limit minus failures = 1, so the row count does not equal N minus the
number of failed entries for every listing page. -/
theorem scrape_row_count_counterexample :
    rowsOf (scrape_pokemon wEmptyPage 1 0) = [] ∧
    (scrape_pokemon wEmptyPage 1 0).log = [] ∧
    (rowsOf (scrape_pokemon wEmptyPage 1 0)).length
      ≠ 1 - (scrape_pokemon wEmptyPage 1 0).log.length := by
  exact ⟨rfl, rfl, by decide⟩

/-- C2 amended: when the listing fetch succeeds, the rows are exactly the
flattened successful entries of the page, the row count plus the failure
count equals the number of page entries (so the row count is the page size
minus the number of failed entries), and whenever the page respects the
limit the run returns at most limit rows. -/
theorem scrape_row_count (w : World) (limit offset : Nat) (lst : Listing)
    (h : w.listing limit offset = .ok lst) :
    rowsOf (scrape_pokemon w limit offset) = (lst.results.getD []).filterMap (okRow w) ∧
    (rowsOf (scrape_pokemon w limit offset)).length + (scrape_pokemon w limit offset).log.length
      = (lst.results.getD []).length ∧
    ((lst.results.getD []).length ≤ limit →
      (rowsOf (scrape_pokemon w limit offset)).length ≤ limit) := by
  have hrows : rowsOf (scrape_pokemon w limit offset) = (lst.results.getD []).filterMap (okRow w) := by
    simp [scrape_pokemon, h, rowsOf, processEntries_eq w]
  have hlog : (scrape_pokemon w limit offset).log = (lst.results.getD []).filterMap (errLog w) := by
    simp [scrape_pokemon, h, processEntries_eq w]
  have hlen := length_rows_add_log w (lst.results.getD [])
  refine ⟨hrows, ?_, ?_⟩
  · rw [hrows, hlog]
    exact hlen
  · intro hle
    rw [hrows]
    omega

/-- Witness for the amended C2 at the three-entry fixture world: two rows
plus one failure account for the three page entries. -/
theorem scrape_row_count_witness :
    rowsOf (scrape_pokemon w3 3 0) = ([entryA, entryB, entryC] : List Entry).filterMap (okRow w3) ∧
    (rowsOf (scrape_pokemon w3 3 0)).length + (scrape_pokemon w3 3 0).log.length = 3 := by
  have h := scrape_row_count w3 3 0 { results := some [entryA, entryB, entryC] } rfl
  exact ⟨h.1, h.2.1⟩

/-- C3: when the listing fetch fails, the error propagates, no row is
produced, nothing is logged, and zero detail calls occur. -/
theorem scrape_listing_failure (w : World) (limit offset : Nat) (e : FetchErr)
    (h : w.listing limit offset = .error e) :
    (scrape_pokemon w limit offset).result = .error e ∧
    rowsOf (scrape_pokemon w limit offset) = [] ∧
    (scrape_pokemon w limit offset).log = [] ∧
    countDetailCalls (scrape_pokemon w limit offset).events = 0 := by
  simp [scrape_pokemon, h, rowsOf, countDetailCalls, isDetailCall]

/-- Witness for C3 at a world whose listing fetch times out. -/
theorem scrape_listing_failure_witness :
    (scrape_pokemon wFail 150 0).result = .error "listing timeout" ∧
    rowsOf (scrape_pokemon wFail 150 0) = [] ∧
    (scrape_pokemon wFail 150 0).log = [] ∧
    countDetailCalls (scrape_pokemon wFail 150 0).events = 0 :=
  scrape_listing_failure wFail 150 0 "listing timeout" rfl

/-- C4: when exactly one entry of the page fails its detail fetch, the run
returns the flattened successful entries in listing order with no
placeholder for the failing one, the row count is one less than the page
size, and the failing entry name is logged exactly once. -/
theorem scrape_single_failure (w : World) (limit offset : Nat)
    (pre post : List Entry) (bad : Entry) (err : FetchErr) (lst : Listing)
    (hl : w.listing limit offset = .ok lst)
    (hres : lst.results = some (pre ++ bad :: post))
    (hpre : ∀ p ∈ pre, detOk w p) (hpost : ∀ p ∈ post, detOk w p)
    (hbad : w.detail bad.url = .error err) :
    (scrape_pokemon w limit offset).result = .ok ((pre ++ post).filterMap (okRow w)) ∧
    ((pre ++ post).filterMap (okRow w)).length = (pre ++ bad :: post).length - 1 ∧
    (scrape_pokemon w limit offset).log = [(bad.name, err)] ∧
    ((scrape_pokemon w limit offset).log.map Prod.fst).count bad.name = 1 := by
  have hentries : lst.results.getD [] = pre ++ bad :: post := by rw [hres]; rfl
  have hrows : (pre ++ bad :: post).filterMap (okRow w) = (pre ++ post).filterMap (okRow w) := by
    simp [List.filterMap_append, List.filterMap_cons, okRow, hbad]
  have hlog : (pre ++ bad :: post).filterMap (errLog w) = [(bad.name, err)] := by
    simp [List.filterMap_append, List.filterMap_cons, errLog, hbad,
      filterMap_errLog_all_ok w pre hpre, filterMap_errLog_all_ok w post hpost]
  have hresu : (scrape_pokemon w limit offset).result
      = .ok ((pre ++ bad :: post).filterMap (okRow w)) := by
    simp [scrape_pokemon, hl, hentries, processEntries_eq w]
  have hlogr : (scrape_pokemon w limit offset).log = [(bad.name, err)] := by
    simp [scrape_pokemon, hl, hentries, processEntries_eq w, hlog]
  refine ⟨by rw [hresu, hrows], ?_, hlogr, ?_⟩
  · rw [List.filterMap_append, List.length_append,
      filterMap_okRow_all_ok w pre hpre, filterMap_okRow_all_ok w post hpost]
    simp [List.length_append]
  · rw [hlogr]
    simp

/-- Witness for C4 at the three-entry fixture world where the middle entry
times out: rows are the flattened first and last entries and the log holds
one line naming the middle entry. -/
theorem scrape_single_failure_witness :
    (scrape_pokemon w3 3 0).result = .ok (([entryA] ++ [entryC]).filterMap (okRow w3)) ∧
    (scrape_pokemon w3 3 0).log = [(some "B", "timeout")] ∧
    ((scrape_pokemon w3 3 0).log.map Prod.fst).count (some "B") = 1 := by
  have h := scrape_single_failure w3 3 0 [entryA] [entryC] entryB "timeout"
      { results := some [entryA, entryB, entryC] } rfl rfl
      (by intro p hp; simp at hp; subst hp; exact ⟨dA, rfl⟩)
      (by intro p hp; simp at hp; subst hp; exact ⟨dC, rfl⟩)
      rfl
  exact ⟨h.1, h.2.2.1, h.2.2.2⟩

/-- C8: every run trace is paced, and on a successful listing the trace is
the listing call followed, for each entry in order and whatever the
outcome of its detail fetch, by the detail call and then the fixed sleep
of one fifth, so no two detail calls occur without a pacing sleep between
them. -/
theorem scrape_paced (w : World) (limit offset : Nat) :
    paced (scrape_pokemon w limit offset).events = true ∧
    ∀ lst, w.listing limit offset = .ok lst →
      (scrape_pokemon w limit offset).events
        = .listingCall limit offset :: entryEvents (lst.results.getD []) := by
  cases h : w.listing limit offset with
  | error e =>
    refine ⟨?_, ?_⟩
    · simp [scrape_pokemon, h, paced, pacedFrom]
    · intro lst hlst
      exact Except.noConfusion hlst
  | ok lst0 =>
    have hev : (scrape_pokemon w limit offset).events
        = .listingCall limit offset :: entryEvents (lst0.results.getD []) := by
      simp [scrape_pokemon, h, processEntries_eq w]
    refine ⟨?_, ?_⟩
    · simp only [paced, hev, pacedFrom]
      exact pacedFrom_entryEvents _
    · intro lst hlst
      injection hlst with h2
      rw [hev, h2]

/-- Witness for C8 at the three-entry fixture world. -/
theorem scrape_paced_witness :
    paced (scrape_pokemon w3 3 0).events = true ∧
    (scrape_pokemon w3 3 0).events
      = .listingCall 3 0 :: entryEvents [entryA, entryB, entryC] :=
  ⟨(scrape_paced w3 3 0).1,
    (scrape_paced w3 3 0).2 { results := some [entryA, entryB, entryC] } rfl⟩

/-- C9: when the listing fetch succeeds but the body lacks the results
key, the run does not raise: zero detail calls occur, nothing is logged,
and the result set is empty. -/
theorem scrape_missing_results_key (w : World) (limit offset : Nat) (lst : Listing)
    (hl : w.listing limit offset = .ok lst) (hres : lst.results = none) :
    (scrape_pokemon w limit offset).result = .ok [] ∧
    (scrape_pokemon w limit offset).log = [] ∧
    countDetailCalls (scrape_pokemon w limit offset).events = 0 := by
  simp [scrape_pokemon, hl, hres, processEntries, countDetailCalls, isDetailCall]

/-- Witness for C9 at a world whose listing body is an empty object. -/
theorem scrape_missing_results_key_witness :
    (scrape_pokemon wNoResults 150 0).result = .ok [] ∧
    (scrape_pokemon wNoResults 150 0).log = [] ∧
    countDetailCalls (scrape_pokemon wNoResults 150 0).events = 0 :=
  scrape_missing_results_key wNoResults 150 0 { results := none } rfl rfl

/-- C5: flattening a detail document in which both the types key and the
abilities key are absent succeeds and yields the empty string for both
joined fields. -/
theorem flatten_missing_types_abilities (d : Details)
    (hty : d.types = none) (hab : d.abilities = none) :
    (parse_pokemon_details d).types = "" ∧ (parse_pokemon_details d).abilities = "" := by
  simp [parse_pokemon_details, typeNames, abilityNames, hty, hab, joinComma]

/-- Witness for C5 at the all-absent detail document. -/
theorem flatten_missing_types_abilities_witness :
    (parse_pokemon_details dEmpty).types = "" ∧ (parse_pokemon_details dEmpty).abilities = "" :=
  flatten_missing_types_abilities dEmpty rfl rfl

/-- C6: flattening copies id, name, height, weight and base experience
directly into the flat row; an absent source field passes through as the
absent sentinel, and the function is total, so a missing scalar never
raises. -/
theorem flatten_copies_scalars (d : Details) :
    (parse_pokemon_details d).id = d.id ∧
    (parse_pokemon_details d).name = d.name ∧
    (parse_pokemon_details d).height_dm = d.height ∧
    (parse_pokemon_details d).weight_hg = d.weight ∧
    (parse_pokemon_details d).base_experience = d.base_experience :=
  ⟨rfl, rfl, rfl, rfl, rfl⟩

/-! Lemmas about the summary arithmetic. -/

theorem filterMap_bexp (rows : List FlatRow) :
    rows.filterMap (fun r => r.base_experience)
      = (rows.filter (fun r => r.base_experience.isSome)).map
          (fun r => r.base_experience.getD 0) := by
  induction rows with
  | nil => rfl
  | cons r t ih => cases h : r.base_experience <;> simp [List.filterMap_cons, h, ih]

theorem averageBaseExperience_eq_spec (rows : List FlatRow) (h : rows ≠ []) :
    averageBaseExperience rows = .ok (meanNonNullSpec rows) := by
  unfold averageBaseExperience meanNonNullSpec
  rw [if_neg (by simp [h]), filterMap_bexp rows]
  by_cases hf : rows.filter (fun r => r.base_experience.isSome) = []
  · rw [hf]
    rfl
  · rw [if_neg (by simp [hf]), if_neg (by simp [hf]), List.map_map, List.length_map]
    rfl

/-- C7 counterexample: on the empty result set, where vacuously no row has
a non-null base experience, the summary does not report an undefined
average: a DataFrame built from zero rows has no base experience column,
so the column access raises a KeyError instead of yielding any value. -/
theorem average_base_experience_crash_counterexample :
    averageBaseExperience [] = .error "KeyError: base_experience" ∧
    ∀ q : Option ℚ, averageBaseExperience [] ≠ .ok q := by
  refine ⟨rfl, ?_⟩
  intro q hq
  have h1 : (Except.error "KeyError: base_experience" : Except String (Option ℚ)) = .ok q := hq
  exact Except.noConfusion h1

/-- C7 amended: on every nonempty result set the average base experience
is the arithmetic mean over exactly the rows where it is non-null, with
nulls excluded from both the sum and the count; the example rows 10,
null, 20 average to 15, and a nonempty result set in which no row carries
a value reports the average as undefined instead of dividing by zero. On
the empty result set the summary instead raises a KeyError, because the
DataFrame has no base experience column there. -/
theorem average_base_experience_nonnull_mean :
    (∀ rows : List FlatRow, rows ≠ [] →
      averageBaseExperience rows = .ok (meanNonNullSpec rows)) ∧
    averageBaseExperience exampleRows7 = .ok (some 15) ∧
    averageBaseExperience allNullRows = .ok none := by
  refine ⟨averageBaseExperience_eq_spec, ?_, ?_⟩
  · norm_num [averageBaseExperience, exampleRows7, rowBexp, List.filterMap_cons]
  · norm_num [averageBaseExperience, allNullRows, rowBexp, List.filterMap_cons]

/-- Witness for the amended C7 at the example rows, which form a nonempty
result set. -/
theorem average_base_experience_nonnull_mean_witness :
    averageBaseExperience exampleRows7 = .ok (meanNonNullSpec exampleRows7) :=
  average_base_experience_nonnull_mean.1 exampleRows7 (by decide)

/-- C10: the printed average is the exact mean rounded to two decimal
places whenever at least one non-null base experience value exists, and
that rounding genuinely changes some means, so the printed value is not in
general the exact mean. -/
theorem printed_average_is_rounded :
    (∀ rows : List FlatRow, ∀ v : ℚ, averageBaseExperience rows = .ok (some v) →
      printedAverage rows = .ok (some (round2 v))) ∧
    (∃ rows : List FlatRow, ∃ v : ℚ,
      averageBaseExperience rows = .ok (some v) ∧ printedAverage rows ≠ .ok (some v)) := by
  constructor
  · intro rows v h
    rw [printedAverage, h]
    rfl
  · refine ⟨rowsThird, 31 / 3, ?_, ?_⟩
    · norm_num [averageBaseExperience, rowsThird, rowBexp, List.filterMap_cons]
    · have hv : averageBaseExperience rowsThird = .ok (some (31 / 3)) := by
        norm_num [averageBaseExperience, rowsThird, rowBexp, List.filterMap_cons]
      rw [printedAverage, hv]
      intro hcontra
      have h1 : (Except.ok (some (round2 (31 / 3))) : Except String (Option ℚ))
          = .ok (some (31 / 3)) := hcontra
      have h2 : round2 (31 / 3) = 31 / 3 := by
        injection h1 with h1a
        exact Option.some.inj h1a
      norm_num [round2, roundHalfEven] at h2

/-- Witness for C10: the printed average over the fixture rows with mean
31 thirds is that mean rounded to two decimals. -/
theorem printed_average_is_rounded_witness :
    printedAverage rowsThird = .ok (some (round2 (31 / 3))) :=
  printed_average_is_rounded.1 rowsThird (31 / 3)
    (by norm_num [averageBaseExperience, rowsThird, rowBexp, List.filterMap_cons])

end PokeApi
